import Mathlib

/-!
# Verification of the dynamic CRUD dispatcher (`controllers/dynamicController.js`)

This file gives a shallow embedding of the dynamic request dispatcher of the
HelpCodeItMockApi repository and proves/refutes the specification claims about
it.  JSON-ish runtime values are modelled by `JValue`; JavaScript numbers are
modelled by `JNum` (a finite rational, a signed infinity, or NaN — IEEE
rounding plays no role in any claim, so finite numbers are kept exact).  The
host builtins `Number(...)`, `parseFloat(...)` and `Number.isInteger(...)`
used by `validateDataType` are embedded as `jsToNumber`, `jsParseFloat` and
`numIsInteger`; `Date.parse` is kept abstract as a `dateParse` parameter since
no claim exercises the DATE/DATETIME branch.
-/

/-- A JavaScript number: exact finite value, signed infinity, or NaN. -/
inductive JNum where
  | finite (q : Rat)
  | inf (neg : Bool)
  | nan
deriving DecidableEq

/-- A JSON-ish JavaScript runtime value as it appears in request bodies and
stored payloads: string, number, boolean, or null.  (`undefined` is modelled
as `Option.none` at use sites, mirroring absent object keys.) -/
inductive JValue where
  | str (s : String)
  | num (n : JNum)
  | bool (b : Bool)
  | null
deriving DecidableEq

/-- `typeof value === 'string'`. -/
def JValue.isString : JValue → Bool
  | .str _ => true
  | _ => false

/-- `typeof value === 'boolean'`. -/
def JValue.isBoolean : JValue → Bool
  | .bool _ => true
  | _ => false

/-- JavaScript whitespace characters stripped by `Number`/`parseFloat`. -/
def isJsWs (c : Char) : Bool :=
  c = ' ' || c = '\t' || c = '\n' || c = '\r' || c = '\x0b' || c = '\x0c'

/-- Value of a list of decimal digit characters. -/
def digitsVal (ds : List Char) : Nat :=
  ds.foldl (fun a c => 10 * a + (c.toNat - 48)) 0

/-- Longest-prefix parse of an unsigned decimal mantissa
(`Digits [. Digits?] | . Digits`); returns the integer-part value, the
fraction-digits value, the number of fraction digits, and the rest. -/
def parseMantissa (cs : List Char) : Option (Nat × Nat × Nat × List Char) :=
  let ip := cs.takeWhile Char.isDigit
  let r1 := cs.dropWhile Char.isDigit
  match r1 with
  | '.' :: r2 =>
      let fp := r2.takeWhile Char.isDigit
      let r3 := r2.dropWhile Char.isDigit
      if ip.isEmpty && fp.isEmpty then none
      else some (digitsVal ip, digitsVal fp, fp.length, r3)
  | _ => if ip.isEmpty then none else some (digitsVal ip, 0, 0, r1)

/-- Longest-prefix parse of an exponent part (`[eE] [+-]? Digits`). -/
def parseExponent (cs : List Char) : Option (Int × List Char) :=
  match cs with
  | c :: rest =>
      if c = 'e' || c = 'E' then
        let sgnRest : Int × List Char :=
          match rest with
          | '+' :: r => (1, r)
          | '-' :: r => (-1, r)
          | r => (1, r)
        let ds := sgnRest.2.takeWhile Char.isDigit
        let r2 := sgnRest.2.dropWhile Char.isDigit
        if ds.isEmpty then none else some (sgnRest.1 * (digitsVal ds : Int), r2)
      else none
  | [] => none

/-- Exact value of a parsed decimal literal: sign, mantissa `ip.fp` with `L`
fraction digits, and decimal exponent `e`; i.e.
`±(ip·10^L + fp) · 10^e / 10^L`, built with `mkRat` so it reduces in the
kernel. -/
def decValue (neg : Bool) (ip fp L : Nat) (e : Int) : Rat :=
  let mantNat : Nat := ip * 10 ^ L + fp
  let mant : Int := if neg then -(mantNat : Int) else (mantNat : Int)
  if 0 ≤ e then mkRat (mant * ((10 ^ e.toNat : Nat) : Int)) (10 ^ L)
  else mkRat mant (10 ^ L * 10 ^ (-e).toNat)

/-- Longest-prefix parse of a signed decimal literal
(`[+-]? (Infinity | Mantissa ExponentPart?)`), the grammar shared by
`parseFloat` and the decimal case of `Number`. -/
def parseDecLiteral (cs : List Char) : Option (JNum × List Char) :=
  let signSplit : Bool × List Char :=
    match cs with
    | '-' :: r => (true, r)
    | '+' :: r => (false, r)
    | r => (false, r)
  let neg := signSplit.1
  let r0 := signSplit.2
  if r0.take 8 = "Infinity".toList then
    some (JNum.inf neg, r0.drop 8)
  else
    match parseMantissa r0 with
    | none => none
    | some (ip, fp, L, r1) =>
        match parseExponent r1 with
        | some (e, r2) => some (JNum.finite (decValue neg ip fp L e), r2)
        | none => some (JNum.finite (decValue neg ip fp L 0), r1)

/-- `parseFloat` applied to a string: skip leading whitespace, take the
longest numeric prefix, NaN when there is none. -/
def jsParseFloatStr (s : String) : JNum :=
  match parseDecLiteral (s.toList.dropWhile isJsWs) with
  | some (n, _) => n
  | none => JNum.nan

/-- `parseFloat(value)`: the argument is first converted to a string.  A
number round-trips through its string form (`String(NaN) = "NaN"` parses back
to NaN); `"true"`, `"false"` and `"null"` have no numeric prefix. -/
def jsParseFloat : JValue → JNum
  | .num n => n
  | .str s => jsParseFloatStr s
  | _ => JNum.nan

/-- Value of a hexadecimal digit character, if any. -/
def hexVal (c : Char) : Option Nat :=
  if '0' ≤ c ∧ c ≤ '9' then some (c.toNat - 48)
  else if 'a' ≤ c ∧ c ≤ 'f' then some (c.toNat - 87)
  else if 'A' ≤ c ∧ c ≤ 'F' then some (c.toNat - 55)
  else none

/-- Accumulating value of digits in a given radix; `none` on a bad digit. -/
def radixDigitsVal (radix : Nat) : List Char → Nat → Option Nat
  | [], acc => some acc
  | c :: rest, acc =>
      match hexVal c with
      | some d => if d < radix then radixDigitsVal radix rest (radix * acc + d) else none
      | none => none

/-- Full parse of a non-empty digit string in a given radix. -/
def parseRadixDigits (radix : Nat) (cs : List Char) : Option Nat :=
  if cs.isEmpty then none else radixDigitsVal radix cs 0

/-- Trim JavaScript whitespace from both ends. -/
def jsTrim (cs : List Char) : List Char :=
  ((cs.dropWhile isJsWs).reverse.dropWhile isJsWs).reverse

/-- Full-string decimal case of `Number(string)`: the whole trimmed string
must be one signed decimal literal. -/
def jsDecFull (cs : List Char) : JNum :=
  match parseDecLiteral cs with
  | some (n, []) => n
  | _ => JNum.nan

/-- `Number(string)`: trim whitespace; empty string is 0; `0x`/`0o`/`0b`
prefixed strings parse in that radix; otherwise one full decimal literal. -/
def jsToNumberStr (s : String) : JNum :=
  let cs := jsTrim s.toList
  if cs.isEmpty then JNum.finite 0
  else
    match cs with
    | '0' :: c :: rest =>
        if c = 'x' || c = 'X' then
          match parseRadixDigits 16 rest with
          | some n => JNum.finite (n : Rat)
          | none => JNum.nan
        else if c = 'o' || c = 'O' then
          match parseRadixDigits 8 rest with
          | some n => JNum.finite (n : Rat)
          | none => JNum.nan
        else if c = 'b' || c = 'B' then
          match parseRadixDigits 2 rest with
          | some n => JNum.finite (n : Rat)
          | none => JNum.nan
        else jsDecFull cs
    | _ => jsDecFull cs

/-- `Number(value)` (the ToNumber coercion) on our value model. -/
def jsToNumber : JValue → JNum
  | .num n => n
  | .bool b => JNum.finite (if b then 1 else 0)
  | .null => JNum.finite 0
  | .str s => jsToNumberStr s

/-- `Number.isInteger(n)`: finite with zero fractional part. -/
def numIsInteger : JNum → Bool
  | .finite q => q.den == 1
  | _ => false

/-- `isNaN(n)` for an already-numeric argument. -/
def jnumIsNaN : JNum → Bool
  | .nan => true
  | _ => false

/-- `data_type.toUpperCase()`: uppercase each character.  (Equal to
`String.toUpper`, but stated via `List.map` so that it reduces in the
kernel.) -/
def jsToUpper (s : String) : String :=
  String.mk (s.data.map Char.toUpper)

/-- `validateDataType(value, data_type)` from `dynamicController.js`.
`dateParse` stands for the host builtin test `!isNaN(Date.parse(value))` of
the DATE/DATETIME branch, which no claim exercises and which every theorem
holds for uniformly. -/
def validateDataType (dateParse : JValue → Bool) (value : JValue) (data_type : String) : Bool :=
  match jsToUpper data_type with
  | "INT" => numIsInteger (jsToNumber value)
  | "FLOAT" => !(jnumIsNaN (jsParseFloat value))
  | "VARCHAR" => value.isString
  | "TEXT" => value.isString
  | "BOOLEAN" =>
      decide (value = JValue.str "true") || decide (value = JValue.str "false")
        || value.isBoolean
  | "DATE" => dateParse value
  | "DATETIME" => dateParse value
  | _ => false


/-! ## Data model: endpoints, fields, stored documents -/

/-- A row of the `api_endpoints` table, as read by `handleRequest`. -/
structure Endpoint where
  endpoint_id : Nat
  endpoint_name : String
  user_id : Nat
deriving DecidableEq

/-- A row of the `fields` table: one declared field of an endpoint's schema.
`default_value` is the `default_value` column, `JValue.null` when NULL. -/
structure FieldDef where
  endpoint_id : Nat
  field_name : String
  data_type : String
  is_required : Bool
  default_value : JValue
deriving DecidableEq

/-- A parsed JSON object (insertion-ordered key/value pairs), as used for
request bodies' declared part and for stored document payloads. -/
abbrev JObject := List (String × JValue)

/-- JavaScript property assignment `obj[k] = v`: overwrite in place when the
key exists, append otherwise. -/
def setKey : JObject → String → JValue → JObject
  | [], k, v => [(k, v)]
  | (k0, v0) :: rest, k, v =>
      if k0 = k then (k0, v) :: rest else (k0, v0) :: setKey rest k v

/-- JavaScript property read `obj[k]`: the value at the first matching key,
`none` (undefined) when absent. -/
def getKey : JObject → String → Option JValue
  | [], _ => none
  | (k0, v0) :: rest, k => if k0 = k then some v0 else getKey rest k

/-- Spread an object after a base object, `{ ...base, ...obj }` with `obj`
written second: every key of `obj`, in order, overwrites the base. -/
def spreadAfter (base obj : JObject) : JObject :=
  obj.foldl (fun acc kv => setKey acc kv.1 kv.2) base

/-- A row of `data_storage` as selected by `handleRead`: the generated
identity and the JSON-parsed payload. -/
structure StoredRow where
  data_id : Nat
  data : JObject
deriving DecidableEq

/-- The test `value === undefined || value === null || value === ''` used by
`handleCreate` (`none` models an absent key, i.e. `undefined`). -/
def jsAbsent (value : Option JValue) : Bool :=
  match value with
  | none => true
  | some JValue.null => true
  | some (JValue.str "") => true
  | some _ => false

/-! ## Handlers -/

/-- Outcome of `handleCreate`: the first 400 response, or the 201 response
together with the payload passed to the `INSERT`.  The two error forms return
from inside the field loop, before the `INSERT` statement runs, so no
document is persisted for them. -/
inductive CreateResult where
  | requiredError (field_name : String)
  | typeError (field_name : String) (data_type : String)
  | created (jsonData : JObject)
deriving DecidableEq

/-- The field loop of `handleCreate`, accumulating `jsonData`.  Per field, in
declared order: the required check on an absent/null/empty value returns 400
first; a present value is type-checked (400 on failure) and copied into
`jsonData` unchanged; an absent value with a non-NULL default takes the
default. -/
def handleCreateGo (dateParse : JValue → Bool) (data : String → Option JValue) :
    List FieldDef → JObject → CreateResult
  | [], jsonData => CreateResult.created jsonData
  | field :: rest, jsonData =>
      let value := data field.field_name
      if field.is_required && jsAbsent value then
        CreateResult.requiredError field.field_name
      else
        match value with
        | some v =>
            if !(jsAbsent (some v)) then
              if validateDataType dateParse v field.data_type then
                handleCreateGo dateParse data rest (setKey jsonData field.field_name v)
              else
                CreateResult.typeError field.field_name field.data_type
            else if field.default_value ≠ JValue.null then
              handleCreateGo dateParse data rest
                (setKey jsonData field.field_name field.default_value)
            else
              handleCreateGo dateParse data rest jsonData
        | none =>
            if field.default_value ≠ JValue.null then
              handleCreateGo dateParse data rest
                (setKey jsonData field.field_name field.default_value)
            else
              handleCreateGo dateParse data rest jsonData

/-- `handleCreate(req, res, endpoint_id, fields)`: run the validation loop
over the declared fields starting from an empty `jsonData`. -/
def handleCreate (dateParse : JValue → Bool) (fields : List FieldDef)
    (data : String → Option JValue) : CreateResult :=
  handleCreateGo dateParse data fields []

/-- `handleRead`: each stored row becomes `{ data_id: row.data_id, ...parsedData }` —
the parsed payload is spread after the identity key. -/
def handleRead (rows : List StoredRow) : List JObject :=
  rows.map (fun row =>
    spreadAfter [("data_id", JValue.num (JNum.finite (row.data_id : Rat)))] row.data)

/-- Outcome of `handleUpdate`: 400 missing id, 404 no such row, 400 type
error from the field loop, or the 200 response with the merged payload
written back by the `UPDATE`. -/
inductive UpdateResult where
  | missingId
  | notFound
  | typeError (field_name : String) (data_type : String)
  | updated (data : JObject)
deriving DecidableEq

/-- The field loop of `handleUpdate`: a declared field whose body value is
not `undefined` is type-checked (400 on failure) and overwrites that key of
the existing payload; an `undefined` field is skipped. -/
def updateLoop (dateParse : JValue → Bool) (data : String → Option JValue) :
    List FieldDef → JObject → UpdateResult
  | [], existingData => UpdateResult.updated existingData
  | field :: rest, existingData =>
      match data field.field_name with
      | some value =>
          if validateDataType dateParse value field.data_type then
            updateLoop dateParse data rest (setKey existingData field.field_name value)
          else
            UpdateResult.typeError field.field_name field.data_type
      | none => updateLoop dateParse data rest existingData

/-- `handleUpdate(req, res, endpoint_id, fields)`: a falsy `req.query.id`
(absent or empty) is 400; an empty `SELECT` result for the id is 404;
otherwise the field loop merges the body into `existingRows[0]`. -/
def handleUpdate (dateParse : JValue → Bool) (fields : List FieldDef)
    (identifier : Option String) (existingRows : List JObject)
    (data : String → Option JValue) : UpdateResult :=
  match identifier with
  | none => UpdateResult.missingId
  | some s =>
      if s = "" then UpdateResult.missingId
      else
        match existingRows with
        | [] => UpdateResult.notFound
        | existingData :: _ => updateLoop dateParse data fields existingData

/-! ## Dispatcher -/

/-- Observable step of `handleRequest` after the endpoint lookup: an
immediate JSON response (status and message), or dispatch to the operation
handler for one of the four supported verbs with the resolved endpoint id
and its field rows. -/
inductive Step where
  | respond (status : Nat) (message : String)
  | dispatch (verb : String) (endpoint_id : Nat) (fields : List FieldDef)
deriving DecidableEq

/-- The SQL filter of `handleRequest`'s endpoint lookup:
`WHERE endpoint_name = ? AND user_id = ?`. -/
def resolveEndpoints (endpointsDb : List Endpoint) (endpoint_name : String)
    (user_id : Nat) : List Endpoint :=
  endpointsDb.filter (fun e => decide (e.endpoint_name = endpoint_name ∧ e.user_id = user_id))

/-- `handleRequest`: uppercase the verb, resolve `(endpoint_name, user_id)`
against `api_endpoints` (404 on no match, before any verb handling), fetch
the endpoint's field rows, then switch on the verb — the four CRUD verbs
dispatch, anything else is 405. -/
def handleRequest (endpointsDb : List Endpoint) (fieldsDb : List FieldDef)
    (user_id : Nat) (endpoint_name : String) (method : String) : Step :=
  let http_method := jsToUpper method
  match resolveEndpoints endpointsDb endpoint_name user_id with
  | [] => Step.respond 404 "API endpoint not found."
  | endpoint :: _ =>
      let fields := fieldsDb.filter (fun f => decide (f.endpoint_id = endpoint.endpoint_id))
      if http_method = "GET" then Step.dispatch "GET" endpoint.endpoint_id fields
      else if http_method = "POST" then Step.dispatch "POST" endpoint.endpoint_id fields
      else if http_method = "PUT" then Step.dispatch "PUT" endpoint.endpoint_id fields
      else if http_method = "DELETE" then Step.dispatch "DELETE" endpoint.endpoint_id fields
      else Step.respond 405 "Method Not Allowed"




/-! ## Association-list lemmas -/

theorem getKey_setKey (l : JObject) (k k0 : String) (v : JValue) :
    getKey (setKey l k0 v) k = if k = k0 then some v else getKey l k := by
  induction l with
  | nil =>
      rcases eq_or_ne k k0 with h | h
      · subst h; simp [setKey, getKey]
      · simp [setKey, getKey, h, Ne.symm h]
  | cons hd tl ih =>
      obtain ⟨k1, v1⟩ := hd
      rcases eq_or_ne k1 k0 with h1 | h1
      · subst h1
        simp only [setKey, if_pos rfl]
        rcases eq_or_ne k k1 with h | h
        · subst h; simp [getKey]
        · simp [getKey, h, Ne.symm h]
      · simp only [setKey, if_neg h1]
        rcases eq_or_ne k1 k with h | h
        · subst h
          simp [getKey, h1]
        · simp [getKey, h, ih]

theorem getKey_eq_none_of_not_mem (l : JObject) (k : String)
    (h : k ∉ l.map Prod.fst) : getKey l k = none := by
  induction l with
  | nil => rfl
  | cons hd tl ih =>
      obtain ⟨k1, v1⟩ := hd
      simp only [List.map_cons, List.mem_cons, not_or] at h
      obtain ⟨hk, hmem⟩ := h
      simp [getKey, Ne.symm hk, ih hmem]

theorem getKey_spreadAfter (obj : JObject) (base : JObject) (k : String)
    (hnd : (obj.map Prod.fst).Nodup) :
    getKey (spreadAfter base obj) k =
      match getKey obj k with
      | some v => some v
      | none => getKey base k := by
  induction obj generalizing base with
  | nil => simp [spreadAfter, getKey]
  | cons hd tl ih =>
      obtain ⟨k1, v1⟩ := hd
      simp only [List.map_cons, List.nodup_cons] at hnd
      have hstep : spreadAfter base ((k1, v1) :: tl) = spreadAfter (setKey base k1 v1) tl := rfl
      rw [hstep, ih _ hnd.2]
      rcases eq_or_ne k k1 with h | h
      · subst h
        have hnone : getKey tl k = none := getKey_eq_none_of_not_mem tl k hnd.1
        simp [hnone, getKey, getKey_setKey]
      · simp [getKey, Ne.symm h, getKey_setKey, h]

/-! ## C1: read-all record shape and the identity/payload collision -/

/-- C1, counterexample: the claim says the generated identity takes
precedence over a colliding `data_id` payload key, but `handleRead` builds
`{ data_id: row.data_id, ...parsedData }`, spreading the payload second: for
the stored row with identity 1 and payload `{"data_id": "x"}` the returned
record carries the payload's string `"x"`, not the identity 1. -/
theorem read_identity_collision_payload_wins_cex :
    handleRead [⟨1, [("data_id", JValue.str "x")]⟩] = [[("data_id", JValue.str "x")]] ∧
    JValue.str "x" ≠ JValue.num (JNum.finite 1) := by
  constructor
  · rfl
  · decide

/-- C1 (amended): each read-all record is the union of the generated
identity and the document's payload fields, but on a key collision with the
identity field name `data_id` the payload value takes precedence (the payload
is spread after the identity): a key present in the payload is returned with
the payload's value, and `data_id` carries the generated identity only when
the payload lacks that key. -/
theorem read_record_union_payload_precedence (rows : List StoredRow) (i : Nat)
    (row : StoredRow) (hrow : rows[i]? = some row)
    (hnd : (row.data.map Prod.fst).Nodup) (k : String) :
    ∃ r, (handleRead rows)[i]? = some r ∧
      getKey r k =
        match getKey row.data k with
        | some v => some v
        | none =>
            if k = "data_id" then some (JValue.num (JNum.finite (row.data_id : Rat)))
            else none := by
  refine ⟨spreadAfter [("data_id", JValue.num (JNum.finite (row.data_id : Rat)))] row.data,
    ?_, ?_⟩
  · simp [handleRead, List.getElem?_map, hrow]
  · rw [getKey_spreadAfter _ _ _ hnd]
    cases hv : getKey row.data k with
    | some v => rfl
    | none =>
        rcases eq_or_ne k "data_id" with h | h
        · subst h; simp [getKey]
        · simp [getKey, Ne.symm h, h]

/-- C1 witness: for the concrete store holding one row with identity 7 and
payload `{"a": "v"}`, the read-all record exposes both the identity and the
payload field. -/
theorem read_record_union_payload_precedence_witness :
    (∃ r, (handleRead [⟨7, [("a", JValue.str "v")]⟩])[0]? = some r ∧
        getKey r "data_id" = some (JValue.num (JNum.finite 7))) ∧
    (∃ r, (handleRead [⟨7, [("a", JValue.str "v")]⟩])[0]? = some r ∧
        getKey r "a" = some (JValue.str "v")) := by
  constructor
  · have h := read_record_union_payload_precedence
      [⟨7, [("a", JValue.str "v")]⟩] 0 ⟨7, [("a", JValue.str "v")]⟩ rfl (by decide) "data_id"
    simpa using h
  · have h := read_record_union_payload_precedence
      [⟨7, [("a", JValue.str "v")]⟩] 0 ⟨7, [("a", JValue.str "v")]⟩ rfl (by decide) "a"
    simpa using h

/-! ## C2, C3: endpoint resolution, tenant isolation and verb precedence -/

/-- C2: for tenants `A ≠ B`, an endpoint named `X` that exists only for
owner `A` does not resolve under `B`'s identity: `handleRequest` answers the
same 404 `"API endpoint not found."` it gives for a name `Y` that exists for
no tenant at all, for every requested method — no information leak. -/
theorem tenant_isolation_notfound (endpointsDb : List Endpoint) (fieldsDb : List FieldDef)
    (A B : Nat) (X Y : String) (method : String)
    (hAB : A ≠ B)
    (_hX_exists : ∃ e ∈ endpointsDb, e.endpoint_name = X ∧ e.user_id = A)
    (hX_only : ∀ e ∈ endpointsDb, e.endpoint_name = X → e.user_id = A)
    (hY_nowhere : ∀ e ∈ endpointsDb, e.endpoint_name ≠ Y) :
    handleRequest endpointsDb fieldsDb B X method =
      Step.respond 404 "API endpoint not found." ∧
    handleRequest endpointsDb fieldsDb B X method =
      handleRequest endpointsDb fieldsDb B Y method := by
  have hX : resolveEndpoints endpointsDb X B = [] := by
    rw [resolveEndpoints, List.filter_eq_nil_iff]
    intro e he
    simp only [decide_eq_true_eq, not_and]
    intro hname huid
    exact hAB ((hX_only e he hname).symm.trans huid)
  have hY : resolveEndpoints endpointsDb Y B = [] := by
    rw [resolveEndpoints, List.filter_eq_nil_iff]
    intro e he
    simp only [decide_eq_true_eq, not_and]
    intro hname _
    exact hY_nowhere e he hname
  constructor
  · simp [handleRequest, hX]
  · simp [handleRequest, hX, hY]

/-- C2 witness: with one endpoint `"X"` owned by tenant 1, tenant 2's request
for `"X"` is the same 404 as its request for the nonexistent `"Y"`. -/
theorem tenant_isolation_notfound_witness :
    handleRequest [⟨1, "X", 1⟩] [] 2 "X" "GET" =
      Step.respond 404 "API endpoint not found." ∧
    handleRequest [⟨1, "X", 1⟩] [] 2 "X" "GET" = handleRequest [⟨1, "X", 1⟩] [] 2 "Y" "GET" := by
  exact tenant_isolation_notfound [⟨1, "X", 1⟩] [] 1 2 "X" "Y" "GET" (by decide)
    ⟨⟨1, "X", 1⟩, by simp⟩ (by simp) (by simp)

/-- C3: when the endpoint name does not resolve for the requesting tenant,
`handleRequest` answers 404 for every verb string, unsupported verbs
included; and it answers 405 exactly when the name does resolve and the
uppercased verb is none of GET/POST/PUT/DELETE — so NotFound takes precedence
over MethodNotAllowed whenever both would apply. -/
theorem notfound_precedes_method_not_allowed (endpointsDb : List Endpoint)
    (fieldsDb : List FieldDef) (user_id : Nat) (endpoint_name method : String) :
    (resolveEndpoints endpointsDb endpoint_name user_id = [] →
      handleRequest endpointsDb fieldsDb user_id endpoint_name method =
        Step.respond 404 "API endpoint not found.") ∧
    (handleRequest endpointsDb fieldsDb user_id endpoint_name method =
        Step.respond 405 "Method Not Allowed" ↔
      resolveEndpoints endpointsDb endpoint_name user_id ≠ [] ∧
      jsToUpper method ≠ "GET" ∧ jsToUpper method ≠ "POST" ∧
      jsToUpper method ≠ "PUT" ∧ jsToUpper method ≠ "DELETE") := by
  cases hres : resolveEndpoints endpointsDb endpoint_name user_id with
  | nil =>
      constructor
      · intro _
        simp [handleRequest, hres]
      · simp [handleRequest, hres]
  | cons e rest =>
      constructor
      · intro h
        exact absurd h (by simp)
      · simp only [handleRequest, hres]
        split_ifs with h1 h2 h3 h4 <;> simp_all

/-- C3 witness: an unknown endpoint under the unsupported verb `PATCH` is
404, and the same verb on a known endpoint is 405. -/
theorem notfound_precedes_method_not_allowed_witness :
    handleRequest [] [] 1 "pets" "PATCH" = Step.respond 404 "API endpoint not found." ∧
    handleRequest [⟨1, "pets", 1⟩] [] 1 "pets" "PATCH" =
      Step.respond 405 "Method Not Allowed" := by
  constructor
  · exact (notfound_precedes_method_not_allowed [] [] 1 "pets" "PATCH").1 rfl
  · exact (notfound_precedes_method_not_allowed [⟨1, "pets", 1⟩] [] 1 "pets" "PATCH").2.mpr
      (by constructor <;> decide)

/-! ## Type-validator branch lemmas -/

theorem validateDataType_INT (dp : JValue → Bool) (v : JValue) :
    validateDataType dp v "INT" = numIsInteger (jsToNumber v) := rfl

theorem validateDataType_FLOAT (dp : JValue → Bool) (v : JValue) :
    validateDataType dp v "FLOAT" = !(jnumIsNaN (jsParseFloat v)) := rfl

theorem validateDataType_BOOLEAN (dp : JValue → Bool) (v : JValue) :
    validateDataType dp v "BOOLEAN" =
      (decide (v = JValue.str "true") || decide (v = JValue.str "false") || v.isBoolean) := rfl

/-! ## C4, C5, C8: type-specific validation claims -/

/-- C4, counterexample: the claim says the stored payload value is
normalized to a boolean, but `handleCreate` copies the raw value into
`jsonData`: creating a BOOLEAN field with the string `"true"` stores the
string `"true"`, not the boolean `true`. -/
theorem boolean_create_stores_string_cex :
    handleCreate (fun _ => false) [⟨1, "flag", "BOOLEAN", false, JValue.null⟩]
        (fun n => if n = "flag" then some (JValue.str "true") else none) =
      CreateResult.created [("flag", JValue.str "true")] ∧
    JValue.str "true" ≠ JValue.bool true := by
  constructor
  · rfl
  · decide

/-- C4 (amended): for a BOOLEAN field, validation accepts a value iff it is
a literal boolean or exactly the string `"true"` or `"false"`
(case-sensitive); but the accepted value is placed in the stored payload
as-is, with no normalization — a present, non-empty, non-null value that
passes its type check is stored unchanged, so creating with the string
`"true"` stores the string `"true"`. -/
theorem boolean_validation_stores_raw (dp : JValue → Bool) :
    (∀ v, validateDataType dp v "BOOLEAN" = true ↔
        v = JValue.str "true" ∨ v = JValue.str "false" ∨
        v = JValue.bool true ∨ v = JValue.bool false) ∧
    (∀ (f : FieldDef) (data : String → Option JValue) (v : JValue),
        data f.field_name = some v → jsAbsent (some v) = false →
        validateDataType dp v f.data_type = true →
        handleCreate dp [f] data = CreateResult.created [(f.field_name, v)]) := by
  constructor
  · intro v
    rw [validateDataType_BOOLEAN]
    cases v with
    | str s =>
        simp only [JValue.isBoolean, Bool.or_false, Bool.or_eq_true, decide_eq_true_eq]
        constructor
        · rintro (h | h) <;> simp [h]
        · rintro (h | h | h | h) <;> simp_all
    | num n => simp [JValue.isBoolean]
    | bool b => cases b <;> simp [JValue.isBoolean]
    | null => simp [JValue.isBoolean]
  · intro f data v hdata habs hval
    simp [handleCreate, handleCreateGo, hdata, habs, hval, setKey]

/-- C4 witness: the BOOLEAN validator accepts the string `"true"`, and
creating a BOOLEAN field from it stores exactly that raw string. -/
theorem boolean_validation_stores_raw_witness :
    (validateDataType (fun _ => false) (JValue.str "true") "BOOLEAN" = true ↔
        JValue.str "true" = JValue.str "true" ∨ JValue.str "true" = JValue.str "false" ∨
        JValue.str "true" = JValue.bool true ∨ JValue.str "true" = JValue.bool false) ∧
    handleCreate (fun _ => false) [⟨1, "flag", "BOOLEAN", false, JValue.null⟩]
        (fun n => if n = "flag" then some (JValue.str "true") else none) =
      CreateResult.created [("flag", JValue.str "true")] := by
  constructor
  · exact (boolean_validation_stores_raw (fun _ => false)).1 (JValue.str "true")
  · exact (boolean_validation_stores_raw (fun _ => false)).2
      ⟨1, "flag", "BOOLEAN", false, JValue.null⟩
      (fun n => if n = "flag" then some (JValue.str "true") else none)
      (JValue.str "true") rfl rfl rfl

/-- C5, counterexample: the claim says FLOAT accepts only finite decimal
numbers, rejecting `"Infinity"` and strings that are not entirely a decimal
number — but `!isNaN(parseFloat(value))` accepts both `"Infinity"` and
`"3.5abc"`. -/
theorem float_accepts_infinity_cex :
    validateDataType (fun _ => false) (JValue.str "Infinity") "FLOAT" = true ∧
    validateDataType (fun _ => false) (JValue.str "3.5abc") "FLOAT" = true := by
  constructor <;> decide

/-- C5 (amended): for a FLOAT field, validation accepts a value iff
`parseFloat` of its string form yields a number (NaN excluded): every string
whose leading trimmed part parses as a signed decimal literal is accepted —
including the non-finite `"Infinity"` and partially-numeric strings such as
`"3.5abc"` — while strings with no numeric prefix, booleans and null are
rejected; a numeric value is accepted unless it is NaN. -/
theorem float_validation_characterized (dp : JValue → Bool) :
    (∀ n, validateDataType dp (JValue.num n) "FLOAT" = !(jnumIsNaN n)) ∧
    (∀ b, validateDataType dp (JValue.bool b) "FLOAT" = false) ∧
    validateDataType dp JValue.null "FLOAT" = false ∧
    (∀ s, validateDataType dp (JValue.str s) "FLOAT" =
        !(jnumIsNaN (jsParseFloatStr s))) ∧
    validateDataType dp (JValue.str "Infinity") "FLOAT" = true ∧
    validateDataType dp (JValue.str "3.5abc") "FLOAT" = true ∧
    validateDataType dp (JValue.str "3.5") "FLOAT" = true ∧
    validateDataType dp (JValue.str ".5") "FLOAT" = true ∧
    validateDataType dp (JValue.str "abc") "FLOAT" = false ∧
    validateDataType dp (JValue.str "") "FLOAT" = false := by
  refine ⟨fun n => ?_, fun b => ?_, ?_, fun s => ?_, ?_, ?_, ?_, ?_, ?_, ?_⟩ <;>
    (rw [validateDataType_FLOAT]; rfl)

/-- C8: for an INT field, validation accepts a value iff the value,
interpreted as a number by the ToNumber coercion, is finite with zero
fractional part (reduced denominator 1): `"3"` and `3` are accepted, `"3.5"`
is rejected, and non-numeric strings are rejected. -/
theorem int_validation_zero_fraction (dp : JValue → Bool) :
    (∀ v, validateDataType dp v "INT" = true ↔
        ∃ q : Rat, jsToNumber v = JNum.finite q ∧ q.den = 1) ∧
    validateDataType dp (JValue.str "3") "INT" = true ∧
    validateDataType dp (JValue.num (JNum.finite 3)) "INT" = true ∧
    validateDataType dp (JValue.str "3.5") "INT" = false ∧
    validateDataType dp (JValue.str "yes") "INT" = false ∧
    validateDataType dp (JValue.str "abc") "INT" = false := by
  refine ⟨fun v => ?_, ?_, ?_, ?_, ?_, ?_⟩
  · rw [validateDataType_INT]
    cases hjs : jsToNumber v with
    | finite q => simp [numIsInteger]
    | inf b => simp [numIsInteger]
    | nan => simp [numIsInteger]
  all_goals (rw [validateDataType_INT]; decide)

/-! ## C6, C9: fail-fast create validation -/

/-- Whether a field trips `handleCreate`'s per-field checks: the required
check on an absent/null/empty value, or the type check on a present value. -/
def fieldFails (dateParse : JValue → Bool) (data : String → Option JValue)
    (field : FieldDef) : Bool :=
  (field.is_required && jsAbsent (data field.field_name)) ||
    match data field.field_name with
    | some v => !(jsAbsent (some v)) && !(validateDataType dateParse v field.data_type)
    | none => false

/-- The single 400 response `handleCreate` produces for a failing field: the
required check fires first, otherwise the type check. -/
def firstFailureError (data : String → Option JValue)
    (field : FieldDef) : CreateResult :=
  if field.is_required && jsAbsent (data field.field_name) then
    CreateResult.requiredError field.field_name
  else
    CreateResult.typeError field.field_name field.data_type

theorem handleCreateGo_find (dp : JValue → Bool) (data : String → Option JValue) :
    ∀ (fields : List FieldDef) (j : JObject),
      (∀ f, fields.find? (fieldFails dp data) = some f →
          handleCreateGo dp data fields j = firstFailureError data f) ∧
      (fields.find? (fieldFails dp data) = none →
          ∃ p, handleCreateGo dp data fields j = CreateResult.created p) := by
  intro fields
  induction fields with
  | nil =>
      intro j
      constructor
      · intro f hf
        simp at hf
      · intro _
        exact ⟨j, rfl⟩
  | cons g rest ih =>
      intro j
      by_cases hg : fieldFails dp data g = true
      · have hfind : (g :: rest).find? (fieldFails dp data) = some g :=
          List.find?_cons_of_pos _ hg
        constructor
        · intro f hf
          rw [hfind] at hf
          obtain rfl : g = f := Option.some.inj hf
          by_cases hreq : (g.is_required && jsAbsent (data g.field_name)) = true
          · simp [handleCreateGo, firstFailureError, hreq]
          · have hreq2 : (g.is_required && jsAbsent (data g.field_name)) = false := by
              simpa using hreq
            simp only [fieldFails] at hg
            rw [Bool.or_eq_true] at hg
            rcases hg with hg | hg
            · exact absurd hg hreq
            · cases hval : data g.field_name with
              | none =>
                  rw [hval] at hg
                  simp at hg
              | some v =>
                  rw [hval] at hg
                  rw [Bool.and_eq_true] at hg
                  obtain ⟨habs, hvalid⟩ := hg
                  have habs2 : jsAbsent (some v) = false := by simpa using habs
                  have hvalid2 : validateDataType dp v g.data_type = false := by
                    simpa using hvalid
                  simp [handleCreateGo, firstFailureError, hval, habs2, hvalid2]
        · intro hnone
          rw [hfind] at hnone
          cases hnone
      · replace hg : fieldFails dp data g = false := by
          simpa using hg
        have hfind : (g :: rest).find? (fieldFails dp data) = rest.find? (fieldFails dp data) :=
          List.find?_cons_of_neg _ (by simp [hg])
        simp only [fieldFails] at hg
        rw [Bool.or_eq_false_iff] at hg
        obtain ⟨hreq, hmatch⟩ := hg
        have hgo : ∃ j2, handleCreateGo dp data (g :: rest) j =
            handleCreateGo dp data rest j2 := by
          cases hval : data g.field_name with
          | none =>
              have hreq2 : g.is_required = false := by
                rw [hval] at hreq
                simpa [jsAbsent] using hreq
              by_cases hdef : g.default_value = JValue.null
              · exact ⟨j, by simp [handleCreateGo, hval, hreq2, hdef]⟩
              · exact ⟨setKey j g.field_name g.default_value,
                  by simp [handleCreateGo, hval, hreq2, hdef]⟩
          | some v =>
              rw [hval] at hreq hmatch
              by_cases habs : jsAbsent (some v) = true
              · have hreq2 : g.is_required = false := by
                  rw [habs, Bool.and_true] at hreq
                  exact hreq
                by_cases hdef : g.default_value = JValue.null
                · exact ⟨j, by simp [handleCreateGo, hval, hreq2, habs, hdef]⟩
                · exact ⟨setKey j g.field_name g.default_value,
                    by simp [handleCreateGo, hval, hreq2, habs, hdef]⟩
              · have habs2 : jsAbsent (some v) = false := by simpa using habs
                have hvalid : validateDataType dp v g.data_type = true := by
                  rw [Bool.and_eq_false_iff] at hmatch
                  rcases hmatch with h2 | h2
                  · exact absurd (by simpa using h2) habs
                  · simpa using h2
                exact ⟨setKey j g.field_name v,
                  by simp [handleCreateGo, hval, habs2, hvalid]⟩
        obtain ⟨j2, hgo⟩ := hgo
        rw [hgo]
        constructor
        · intro f hf
          rw [hfind] at hf
          exact (ih j2).1 f hf
        · intro hnone
          rw [hfind] at hnone
          exact (ih j2).2 hnone

/-- C6: create validation is fail-fast and all-or-nothing: the first field
in schema order that trips the required check or the type check determines
the single 400 error (naming that field), the result is never a successful
creation — so no document is persisted and errors are never accumulated —
and when no field fails the create succeeds with some payload. -/
theorem create_fail_fast (dp : JValue → Bool) (fields : List FieldDef)
    (data : String → Option JValue) :
    (∀ f, fields.find? (fieldFails dp data) = some f →
        handleCreate dp fields data = firstFailureError data f ∧
        ∀ p, handleCreate dp fields data ≠ CreateResult.created p) ∧
    (fields.find? (fieldFails dp data) = none →
        ∃ p, handleCreate dp fields data = CreateResult.created p) := by
  constructor
  · intro f hf
    have h1 := (handleCreateGo_find dp data fields []).1 f hf
    have h2 : handleCreate dp fields data = firstFailureError data f := by
      simpa [handleCreate] using h1
    refine ⟨h2, ?_⟩
    intro p hp
    rw [h2, firstFailureError] at hp
    split at hp <;> cases hp
  · intro hnone
    have h := (handleCreateGo_find dp data fields []).2 hnone
    simpa [handleCreate] using h

/-- C6 witness: with schema `[name: VARCHAR required, age: INT]` and a body
whose `name` is valid but whose `age` is the non-numeric `"oops"`, the
create aborts with the single type error naming `age` and creates nothing. -/
theorem create_fail_fast_witness :
    handleCreate (fun _ => false)
        [⟨1, "name", "VARCHAR", true, JValue.null⟩, ⟨1, "age", "INT", false, JValue.null⟩]
        (fun n => if n = "name" then some (JValue.str "x")
          else if n = "age" then some (JValue.str "oops") else none) =
      CreateResult.typeError "age" "INT" ∧
    ∀ p, handleCreate (fun _ => false)
        [⟨1, "name", "VARCHAR", true, JValue.null⟩, ⟨1, "age", "INT", false, JValue.null⟩]
        (fun n => if n = "name" then some (JValue.str "x")
          else if n = "age" then some (JValue.str "oops") else none) ≠
      CreateResult.created p := by
  have h := (create_fail_fast (fun _ => false)
      [⟨1, "name", "VARCHAR", true, JValue.null⟩, ⟨1, "age", "INT", false, JValue.null⟩]
      (fun n => if n = "name" then some (JValue.str "x")
        else if n = "age" then some (JValue.str "oops") else none)).1
      ⟨1, "age", "INT", false, JValue.null⟩ (by decide)
  exact ⟨h.1.trans (by decide), h.2⟩

/-- C9: on create, a required field whose body value is undefined, null or
empty fails with the 400 naming that field — with no constraint on its
`default_value`, so even a non-null default never substitutes for a missing
required field (the required check runs before default substitution),
provided the earlier schema fields pass their checks. -/
theorem required_precedes_default (dp : JValue → Bool) (data : String → Option JValue)
    (pre post : List FieldDef) (f : FieldDef)
    (hreq : f.is_required = true) (habs : jsAbsent (data f.field_name) = true)
    (hpre : ∀ g ∈ pre, fieldFails dp data g = false) :
    handleCreate dp (pre ++ f :: post) data = CreateResult.requiredError f.field_name := by
  have hfail : fieldFails dp data f = true := by
    simp [fieldFails, hreq, habs]
  have hfind : (pre ++ f :: post).find? (fieldFails dp data) = some f := by
    revert hpre
    induction pre with
    | nil =>
        intro _
        exact List.find?_cons_of_pos _ hfail
    | cons g pre ih =>
        intro hpre
        have hgf : fieldFails dp data g = false := hpre g (by simp)
        rw [List.cons_append, List.find?_cons_of_neg _ (by simp [hgf])]
        exact ih (fun g2 hg2 => hpre g2 (by simp [hg2]))
  have h := (handleCreateGo_find dp data (pre ++ f :: post) []).1 f hfind
  have herr : firstFailureError data f = CreateResult.requiredError f.field_name := by
    rw [firstFailureError, if_pos]
    rw [hreq, habs]
    rfl
  have h2 : handleCreate dp (pre ++ f :: post) data = firstFailureError data f := by
    simpa [handleCreate] using h
  exact h2.trans herr

/-- C9 witness: a required `name` field with the non-null default
`"active"`, posted with an empty body, still yields the 400 naming `name`
rather than substituting the default. -/
theorem required_precedes_default_witness :
    handleCreate (fun _ => false) [⟨1, "name", "VARCHAR", true, JValue.str "active"⟩]
        (fun _ => none) =
      CreateResult.requiredError "name" := by
  exact required_precedes_default (fun _ => false) (fun _ => none) [] []
    ⟨1, "name", "VARCHAR", true, JValue.str "active"⟩ rfl rfl (by simp)

/-! ## C7, C10: partial update semantics -/

theorem updateLoop_untouched (dp : JValue → Bool) (data : String → Option JValue) :
    ∀ (fields : List FieldDef) (existing p : JObject) (k : String),
      updateLoop dp data fields existing = UpdateResult.updated p →
      (∀ f ∈ fields, f.field_name = k → data k = none) →
      getKey p k = getKey existing k := by
  intro fields
  induction fields with
  | nil =>
      intro existing p k hres _
      cases hres
      rfl
  | cons g rest ih =>
      intro existing p k hres hk
      cases hval : data g.field_name with
      | none =>
          simp only [updateLoop, hval] at hres
          exact ih existing p k hres (fun f hf => hk f (List.mem_cons_of_mem g hf))
      | some w =>
          simp only [updateLoop, hval] at hres
          by_cases hvalid : validateDataType dp w g.data_type = true
          · rw [if_pos hvalid] at hres
            have hkg : g.field_name ≠ k := by
              intro heq
              have : data k = none := hk g (List.mem_cons_self g rest) heq
              rw [← heq, hval] at this
              cases this
            have h2 := ih _ p k hres (fun f hf => hk f (List.mem_cons_of_mem g hf))
            rw [h2, getKey_setKey]
            rw [if_neg (fun heq => hkg heq.symm)]
          · rw [if_neg hvalid] at hres
            cases hres

theorem updateLoop_present (dp : JValue → Bool) (data : String → Option JValue) :
    ∀ (fields : List FieldDef) (existing p : JObject) (f : FieldDef) (v : JValue),
      (fields.map FieldDef.field_name).Nodup →
      f ∈ fields → data f.field_name = some v →
      updateLoop dp data fields existing = UpdateResult.updated p →
      getKey p f.field_name = some v := by
  intro fields
  induction fields with
  | nil =>
      intro existing p f v _ hf
      cases hf
  | cons g rest ih =>
      intro existing p f v hnd hf hv hres
      simp only [List.map_cons, List.nodup_cons] at hnd
      rcases List.mem_cons.mp hf with rfl | hf2
      · simp only [updateLoop, hv] at hres
        by_cases hvalid : validateDataType dp v f.data_type = true
        · rw [if_pos hvalid] at hres
          have huntouched := updateLoop_untouched dp data rest
            (setKey existing f.field_name v) p f.field_name hres
            (fun g2 hg2 heq =>
              False.elim (hnd.1 (heq ▸ List.mem_map_of_mem FieldDef.field_name hg2)))
          rw [huntouched, getKey_setKey, if_pos rfl]
        · rw [if_neg hvalid] at hres
          cases hres
      · cases hval : data g.field_name with
        | none =>
            simp only [updateLoop, hval] at hres
            exact ih existing p f v hnd.2 hf2 hv hres
        | some w =>
            simp only [updateLoop, hval] at hres
            by_cases hvalid : validateDataType dp w g.data_type = true
            · rw [if_pos hvalid] at hres
              exact ih _ p f v hnd.2 hf2 hv hres
            · rw [if_neg hvalid] at hres
              cases hres

theorem handleUpdate_updated (dp : JValue → Bool) (fields : List FieldDef)
    (ident : String) (existing : JObject) (data : String → Option JValue) (p : JObject)
    (hres : handleUpdate dp fields (some ident) [existing] data = UpdateResult.updated p) :
    updateLoop dp data fields existing = UpdateResult.updated p := by
  by_cases hid : ident = ""
  · rw [handleUpdate] at hres
    simp [hid] at hres
  · simpa [handleUpdate, hid] using hres

/-- C7: on an update of an existing document, every declared field present
in the request body is overwritten in the stored payload with exactly its
body value, and every key whose field is omitted from the body keeps its
previous value — required/default processing never runs on update (e.g.
`{a:1,b:2}` updated with `{b:3}` yields `{a:1,b:3}`). -/
theorem update_partial_merge (dp : JValue → Bool) (fields : List FieldDef)
    (ident : String) (existing : JObject) (data : String → Option JValue) (p : JObject)
    (hnd : (fields.map FieldDef.field_name).Nodup)
    (hres : handleUpdate dp fields (some ident) [existing] data = UpdateResult.updated p) :
    (∀ f ∈ fields, ∀ v, data f.field_name = some v → getKey p f.field_name = some v) ∧
    (∀ k, (∀ f ∈ fields, f.field_name = k → data k = none) →
        getKey p k = getKey existing k) := by
  have hloop := handleUpdate_updated dp fields ident existing data p hres
  constructor
  · intro f hf v hv
    exact updateLoop_present dp data fields existing p f v hnd hf hv hloop
  · intro k hk
    exact updateLoop_untouched dp data fields existing p k hloop hk

/-- C7 witness: updating the stored `{a:1, b:2}` with body `{b:3}` over the
schema `[a: INT, b: INT]` leaves `a` untouched and overwrites `b` with 3. -/
theorem update_partial_merge_witness :
    getKey [("a", JValue.num (JNum.finite 1)), ("b", JValue.num (JNum.finite 3))] "b" =
      some (JValue.num (JNum.finite 3)) ∧
    getKey [("a", JValue.num (JNum.finite 1)), ("b", JValue.num (JNum.finite 3))] "a" =
      getKey [("a", JValue.num (JNum.finite 1)), ("b", JValue.num (JNum.finite 2))] "a" := by
  have h := update_partial_merge (fun _ => false)
    [⟨1, "a", "INT", false, JValue.null⟩, ⟨1, "b", "INT", false, JValue.null⟩]
    "1" [("a", JValue.num (JNum.finite 1)), ("b", JValue.num (JNum.finite 2))]
    (fun n => if n = "b" then some (JValue.num (JNum.finite 3)) else none)
    [("a", JValue.num (JNum.finite 1)), ("b", JValue.num (JNum.finite 3))]
    (by decide) (by decide)
  exact ⟨h.1 ⟨1, "b", "INT", false, JValue.null⟩ (by simp) (JValue.num (JNum.finite 3)) rfl,
    h.2 "a" (by decide)⟩

/-- C10: on update, a declared field present in the body with value null is
not treated as omitted (only `undefined` is skipped): null reaches type
validation, an INT field accepts it (its ToNumber coercion is 0, an
integer), and on a successful update the stored payload's key for that field
is overwritten with null. -/
theorem update_null_not_skipped (dp : JValue → Bool) (fields : List FieldDef)
    (ident : String) (existing : JObject) (data : String → Option JValue) (p : JObject)
    (f : FieldDef)
    (hnd : (fields.map FieldDef.field_name).Nodup)
    (hf : f ∈ fields) (_hty : f.data_type = "INT")
    (hv : data f.field_name = some JValue.null)
    (hres : handleUpdate dp fields (some ident) [existing] data = UpdateResult.updated p) :
    validateDataType dp JValue.null "INT" = true ∧
    jsToNumber JValue.null = JNum.finite 0 ∧
    getKey p f.field_name = some JValue.null := by
  refine ⟨?_, rfl, ?_⟩
  · rw [validateDataType_INT]
    rfl
  · exact updateLoop_present dp data fields existing p f JValue.null hnd hf hv
      (handleUpdate_updated dp fields ident existing data p hres)

/-- C10 witness: over the one-field INT schema `n`, updating the stored
`{n: 5}` with body `{n: null}` succeeds and overwrites `n` with null. -/
theorem update_null_not_skipped_witness :
    validateDataType (fun _ => false) JValue.null "INT" = true ∧
    jsToNumber JValue.null = JNum.finite 0 ∧
    getKey [("n", JValue.null)] "n" = some JValue.null := by
  exact update_null_not_skipped (fun _ => false) [⟨1, "n", "INT", false, JValue.null⟩]
    "1" [("n", JValue.num (JNum.finite 5))]
    (fun m => if m = "n" then some JValue.null else none)
    [("n", JValue.null)] ⟨1, "n", "INT", false, JValue.null⟩
    (by decide) (by simp) rfl rfl (by decide)
